import Mathlib

/-!
Shallow embedding of the `filter-data` repository: a Next.js list API route
(`src/unnamed/part_000`, function `GET`) that parses query parameters and
filters / sorts / paginates an in-memory array of property records, and the
React client component (`src/property.tsx`) with its filter state, query-string
builder `buildQuery` and the state-update helpers `updateFilter`,
`updateArrayFilter`, `toggleSort`, `changePage`.

Modelling conventions:
* JavaScript numbers are modelled by `JNum`: `NaN`, `+Infinity`, `-Infinity`
  or a finite value carried as an exact rational.  (IEEE-754 rounding is
  abstracted away: all numerals appearing in the repository are small
  integers, where doubles are exact.)
* A query string is modelled as the ordered list of key/value pairs held by a
  `URLSearchParams` object; `URLSearchParams.toString` followed by `new URL`
  re-parsing round-trips these pairs exactly (percent-encoding is inverted on
  parse), so the pair list is the faithful interface between `buildQuery` and
  the route.
* Record fields that may be absent are `Option`-valued; JavaScript code that
  would throw a `TypeError` (e.g. `p.name.toLowerCase()` on an undefined
  `name`) is embedded in `Except String`.
* `new Date(s).getTime()` is abstracted by storing the chronological instant
  of the `last_updated` field directly as an optional rational: `none` stands
  for an absent field or an unparseable date string (both of which yield `NaN`
  from `getTime`), `some t` for a valid date with instant `t`.
-/

/-- A JavaScript number: `NaN`, the two infinities, or a finite value. -/
inductive JNum where
  | nan : JNum
  | inf : JNum
  | neginf : JNum
  | fin : ℚ → JNum
deriving DecidableEq

namespace JNum

/-- JavaScript addition. -/
def add : JNum → JNum → JNum
  | nan, _ => nan
  | _, nan => nan
  | inf, neginf => nan
  | neginf, inf => nan
  | inf, _ => inf
  | _, inf => inf
  | neginf, _ => neginf
  | _, neginf => neginf
  | fin a, fin b => fin (a + b)

/-- JavaScript negation. -/
def neg : JNum → JNum
  | nan => nan
  | inf => neginf
  | neginf => inf
  | fin a => fin (-a)

/-- JavaScript subtraction. -/
def sub (a b : JNum) : JNum := add a (neg b)

/-- JavaScript multiplication. -/
def mul : JNum → JNum → JNum
  | nan, _ => nan
  | _, nan => nan
  | inf, inf => inf
  | inf, neginf => neginf
  | neginf, inf => neginf
  | neginf, neginf => inf
  | inf, fin b => if b = 0 then nan else if 0 < b then inf else neginf
  | fin a, inf => if a = 0 then nan else if 0 < a then inf else neginf
  | neginf, fin b => if b = 0 then nan else if 0 < b then neginf else inf
  | fin a, neginf => if a = 0 then nan else if 0 < a then neginf else inf
  | fin a, fin b => fin (a * b)

/-- JavaScript division (only the cases reachable in this repository matter:
finite dividends and divisors). -/
def div : JNum → JNum → JNum
  | nan, _ => nan
  | _, nan => nan
  | inf, inf => nan
  | inf, neginf => nan
  | neginf, inf => nan
  | neginf, neginf => nan
  | inf, fin b => if 0 ≤ b then inf else neginf
  | neginf, fin b => if 0 ≤ b then neginf else inf
  | fin _, inf => fin 0
  | fin _, neginf => fin 0
  | fin a, fin b =>
      if b = 0 then (if a = 0 then nan else if 0 < a then inf else neginf)
      else fin (a / b)

/-- JavaScript `<`: any comparison involving `NaN` is false. -/
def lt : JNum → JNum → Bool
  | nan, _ => false
  | _, nan => false
  | neginf, neginf => false
  | neginf, _ => true
  | _, neginf => false
  | inf, _ => false
  | fin _, inf => true
  | fin a, fin b => decide (a < b)

/-- JavaScript `<=`: any comparison involving `NaN` is false. -/
def le : JNum → JNum → Bool
  | nan, _ => false
  | _, nan => false
  | neginf, _ => true
  | _, neginf => false
  | _, inf => true
  | inf, fin _ => false
  | fin a, fin b => decide (a ≤ b)

/-- JavaScript `>=`. -/
def ge (a b : JNum) : Bool := le b a

/-- Is the value strictly positive?  (`NaN` is not.) -/
def gtz (a : JNum) : Bool := lt (fin 0) a

/-- `Math.ceil`. -/
def ceil : JNum → JNum
  | nan => nan
  | inf => inf
  | neginf => neginf
  | fin a => fin (⌈a⌉ : ℤ)

end JNum

/-- Truncation toward zero, as used by `ToIntegerOrInfinity` in the semantics
of `Array.prototype.slice`. -/
def truncQ (q : ℚ) : ℤ := if q < 0 then ⌈q⌉ else ⌊q⌋

/-- Resolve one `Array.prototype.slice` argument against a length: `NaN` maps
to 0, negative values count from the end (clamped at 0), nonnegative values
are clamped at the length. -/
def resolveIdx (len : ℕ) (v : JNum) : ℕ :=
  match v with
  | JNum.nan => 0
  | JNum.neginf => 0
  | JNum.inf => len
  | JNum.fin q =>
      let t := truncQ q
      if t < 0 then ((len : ℤ) + t).toNat else min t.toNat len

/-- `Array.prototype.slice(start, stop)` with JavaScript number arguments. -/
def jsSlice (l : List α) (start stop : JNum) : List α :=
  let a := resolveIdx l.length start
  let b := resolveIdx l.length stop
  (l.drop a).take (b - a)

/-- JavaScript string `includes` on explicit character lists. -/
def charsInclude : List Char → List Char → Bool
  | [], n => n.isEmpty
  | c :: rest, n => List.isPrefixOf n (c :: rest) || charsInclude rest n

/-- JavaScript `String.prototype.includes`. -/
def strIncludes (hay need : String) : Bool := charsInclude hay.data need.data

/-- JavaScript `String.prototype.toLowerCase` (ASCII, which covers every
string literal in the repository). -/
def jsToLower (s : String) : String := String.mk (s.data.map Char.toLower)

/-- JavaScript `String.prototype.trim`: strip whitespace from both ends. -/
def jsTrim (s : String) : String :=
  String.mk (((s.data.dropWhile Char.isWhitespace).reverse.dropWhile
    Char.isWhitespace).reverse)

/-- `x || d` on an optional string: JavaScript treats the empty string (and an
absent value) as falsy. -/
def orDefault (o : Option String) (d : String) : String :=
  match o with
  | none => d
  | some s => if s = "" then d else s

/-- `String.prototype.split(sep)` on character lists: splitting the empty
string yields one empty part, exactly as in JavaScript. -/
def splitChars (sep : Char) : List Char → List (List Char)
  | [] => [[]]
  | c :: rest =>
      let r := splitChars sep rest
      if c = sep then [] :: r
      else
        match r with
        | [] => [[c]]
        | h :: t => (c :: h) :: t

/-- JavaScript `String.prototype.split` with a one-character separator. -/
def jsSplit (sep : Char) (s : String) : List String :=
  (splitChars sep s.data).map String.mk

/-- `Array.prototype.join(sep)` on character lists. -/
def joinChars (sep : Char) : List (List Char) → List Char
  | [] => []
  | [x] => x
  | x :: xs => x ++ sep :: joinChars sep xs

/-- JavaScript `Array.prototype.join` with a one-character separator. -/
def jsJoin (sep : Char) (parts : List String) : String :=
  String.mk (joinChars sep (parts.map String.data))

/-- Character value of an ASCII decimal digit. -/
def digitVal (c : Char) : ℕ := c.toNat - 48

/-- Is the character an ASCII decimal digit? -/
def isDigitCh (c : Char) : Bool := decide (48 ≤ c.toNat) && decide (c.toNat ≤ 57)

/-- Split a character list into its longest digit prefix and the rest. -/
def takeDigits : List Char → List ℕ × List Char
  | [] => ([], [])
  | c :: rest =>
      if isDigitCh c then
        let (ds, r) := takeDigits rest
        (digitVal c :: ds, r)
      else ([], c :: rest)

/-- Value of a most-significant-first digit list. -/
def digitsToNat (ds : List ℕ) : ℕ := ds.foldl (fun a d => a * 10 + d) 0

/-- Strip the leading whitespace skipped by `parseInt` / `parseFloat`. -/
def dropWs (cs : List Char) : List Char := cs.dropWhile Char.isWhitespace

/-- Optional leading sign; returns `-1` or `1` and the rest. -/
def takeSign : List Char → ℤ × List Char
  | [] => (1, [])
  | c :: rest =>
      if c = '-' then (-1, rest)
      else if c = '+' then (1, rest)
      else (1, c :: rest)

/-- `parseInt(s)` with no radix argument (no input in this repository carries
a `0x` prefix, and none is produced by the client, so the base-16 branch is
modelled by falling back to `NaN` on a non-digit): longest decimal digit
prefix after optional whitespace and sign, `NaN` when there is none. -/
def parseIntJS (s : String) : JNum :=
  let (sg, cs) := takeSign (dropWs s.data)
  let (ds, _) := takeDigits cs
  if ds.isEmpty then JNum.nan
  else JNum.fin ((sg * (digitsToNat ds : ℤ) : ℤ) : ℚ)

/-- The fractional part `.d₁…dₙ` as an exact rational in `[0,1)`. -/
def fracVal (ds : List ℕ) : ℚ := (digitsToNat ds : ℚ) / ((10 : ℚ) ^ ds.length)

/-- Parse the exponent part `e[+-]digits` of a float literal; returns the
exponent and the unconsumed rest (the whole part is unconsumed when it is not
well formed, as `parseFloat` then stops before the `e`). -/
def takeExpo (cs : List Char) : ℤ × List Char :=
  match cs with
  | 'e' :: rest =>
      let (sg, r1) := takeSign rest
      let (ds, r2) := takeDigits r1
      if ds.isEmpty then (0, cs) else (sg * (digitsToNat ds : ℤ), r2)
  | 'E' :: rest =>
      let (sg, r1) := takeSign rest
      let (ds, r2) := takeDigits r1
      if ds.isEmpty then (0, cs) else (sg * (digitsToNat ds : ℤ), r2)
  | _ => (0, cs)

/-- Scale a rational by an integer power of ten. -/
def scalePow10 (q : ℚ) (e : ℤ) : ℚ :=
  if 0 ≤ e then q * (10 : ℚ) ^ e.toNat else q / (10 : ℚ) ^ (-e).toNat

/-- `parseFloat(s)`: optional whitespace and sign, then either `Infinity` or a
decimal literal `digits[.digits][e[+-]digits]` / `.digits[e…]`; `NaN` when no
prefix parses.  Exact rational arithmetic stands in for IEEE doubles. -/
def parseFloatJS (s : String) : JNum :=
  let (sg, cs) := takeSign (dropWs s.data)
  if List.isPrefixOf "Infinity".data cs then
    (if sg = 1 then JNum.inf else JNum.neginf)
  else
    let (ip, r1) := takeDigits cs
    match r1 with
    | '.' :: r2 =>
        let (fp, r3) := takeDigits r2
        if ip.isEmpty && fp.isEmpty then JNum.nan
        else
          let (e, _) := takeExpo r3
          JNum.fin ((sg : ℚ) * scalePow10 ((digitsToNat ip : ℚ) + fracVal fp) e)
    | _ =>
        if ip.isEmpty then JNum.nan
        else
          let (e, _) := takeExpo r1
          JNum.fin ((sg : ℚ) * scalePow10 (digitsToNat ip : ℚ) e)

/-- Decimal printing of a natural number, the value produced by
`Number.prototype.toString` for nonnegative integer doubles. -/
def natToStr (n : ℕ) : String :=
  if n = 0 then "0"
  else String.mk (((Nat.digits 10 n).reverse).map fun d => Char.ofNat (48 + d))

/-- `Number.prototype.toString` for integer doubles. -/
def intToStr (n : ℤ) : String :=
  if n < 0 then "-" ++ natToStr (-n).toNat else natToStr n.toNat

/-- A property record as accessed by the route's filter and sort code
(`src/unnamed/part_000`, lines 20–39).  Every field that the route reads may
be absent on a raw record, hence the `Option`s.  `last_updated` holds the
chronological instant `new Date(p.last_updated).getTime()` would produce
(`none` for an absent field or an invalid date, both of which give `NaN`). -/
structure PropRec where
  name : Option String
  location : Option String
  status : Option String
  type : Option String
  price : Option ℚ
  rating : Option ℚ
  last_updated : Option ℚ
deriving DecidableEq

/-- An optional numeric field coerced to a JavaScript number: an absent field
(`undefined`) becomes `NaN` under arithmetic/comparison coercion. -/
def optJ (o : Option ℚ) : JNum :=
  match o with
  | none => JNum.nan
  | some q => JNum.fin q

/-- `URLSearchParams.get`: first value for the key, `null` when absent. -/
def getParam (ps : List (String × String)) (k : String) : Option String :=
  (ps.find? fun kv => kv.1 = k).map fun kv => kv.2

/-- The query parameters as parsed by the route (`part_000`, lines 10–18). -/
structure RouteQuery where
  search : String
  sort_by : String
  order : String
  status : List String
  type : List String
  minPrice : JNum
  maxPrice : JNum
  page : JNum
  limit : JNum
deriving DecidableEq

/-- Lines 10–18 of the route: read each raw parameter, apply `|| fallback`
and the numeric parses. -/
def routeParse (ps : List (String × String)) : RouteQuery :=
  { search := ((getParam ps "search").map jsToLower).getD ""
    sort_by := orDefault (getParam ps "sort_by") "last_updated"
    order := orDefault (getParam ps "order") "desc"
    status := match getParam ps "status" with
      | none => []
      | some s => jsSplit ',' s
    type := match getParam ps "type" with
      | none => []
      | some s => jsSplit ',' s
    minPrice := parseFloatJS (orDefault (getParam ps "min_price") "0")
    maxPrice := parseFloatJS (orDefault (getParam ps "max_price") "Infinity")
    page := parseIntJS (orDefault (getParam ps "page") "1")
    limit := parseIntJS (orDefault (getParam ps "limit") "10") }

/-- The search clause `(!search || p.name.toLowerCase().includes(search) ||
p.location.toLowerCase().includes(search))` (`part_000`, line 22).  `search`
is the route-local, already lowercased search string; calling
`.toLowerCase()` on an absent `name`/`location` throws, hence `Except`. -/
def searchClauseE (search : String) (p : PropRec) : Except String Bool :=
  if search = "" then Except.ok true
  else
    match p.name with
    | none => Except.error "TypeError"
    | some nm =>
        if strIncludes (jsToLower nm) search then Except.ok true
        else
          match p.location with
          | none => Except.error "TypeError"
          | some loc => Except.ok (strIncludes (jsToLower loc) search)

/-- The status clause `(!status.length || status.includes(p.status))`
(`part_000`, line 23): `includes(undefined)` is simply false. -/
def statusClause (status : List String) (p : PropRec) : Bool :=
  status.isEmpty ||
    (match p.status with
     | none => false
     | some st => status.contains st)

/-- The type clause (`part_000`, line 24). -/
def typeClause (type : List String) (p : PropRec) : Bool :=
  type.isEmpty ||
    (match p.type with
     | none => false
     | some ty => type.contains ty)

/-- The filter predicate applied to one record (`part_000`, lines 21–27): the
conjunction of the four clauses, where only the search clause can throw and
`&&` short-circuits (the later clauses are pure, so the conjunction is the
boolean one). -/
def recPred (search : String) (status type : List String) (minPrice maxPrice : JNum)
    (p : PropRec) : Except String Bool :=
  match searchClauseE search p with
  | Except.error e => Except.error e
  | Except.ok c1 =>
      Except.ok (c1 && statusClause status p && typeClause type p
        && JNum.ge (optJ p.price) minPrice && JNum.le (optJ p.price) maxPrice)

/-- `Array.prototype.filter` with a predicate that can throw: records are
visited in order and the first thrown error aborts the call. -/
def filterE (f : α → Except ε Bool) : List α → Except ε (List α)
  | [] => pure []
  | x :: xs => do
      let b ← f x
      let rest ← filterE f xs
      pure (if b then x :: rest else rest)

/-- `filtered = properties.filter(...)` (`part_000`, lines 20–28). -/
def routeFilter (search : String) (status type : List String)
    (minPrice maxPrice : JNum) (l : List PropRec) : Except String (List PropRec) :=
  filterE (recPred search status type minPrice maxPrice) l

/-- Dynamic `a[sort_by]` access inside the numeric sort branch. -/
def fieldJ (f : String) (p : PropRec) : JNum :=
  if f = "price" then optJ p.price
  else if f = "rating" then optJ p.rating
  else JNum.nan

/-- The comparator passed to `filtered.sort` (`part_000`, lines 30–39). -/
def routeCmp (sort_by order : String) (a b : PropRec) : JNum :=
  if sort_by = "price" ∨ sort_by = "rating" then
    if order = "asc" then JNum.sub (fieldJ sort_by a) (fieldJ sort_by b)
    else JNum.sub (fieldJ sort_by b) (fieldJ sort_by a)
  else if sort_by = "last_updated" then
    if order = "asc" then JNum.sub (optJ a.last_updated) (optJ b.last_updated)
    else JNum.sub (optJ b.last_updated) (optJ a.last_updated)
  else JNum.fin 0

/-- Insert `b` before the first element it does not have to go after: `b`
passes `y` exactly when the comparator is strictly positive (a `NaN`
comparator value is treated as `+0` by `SortCompare`). -/
def sortInsert (test : α → α → Bool) (b : α) : List α → List α
  | [] => [b]
  | y :: ys => if test b y then y :: sortInsert test b ys else b :: y :: ys

/-- A stable sort driven by a boolean "must go after" test, inserting the
elements from last to first; this realises the ES2019 requirement that
`Array.prototype.sort` be stable. -/
def stableSortBy (test : α → α → Bool) : List α → List α
  | [] => []
  | b :: l => sortInsert test b (stableSortBy test l)

/-- `Array.prototype.sort(cmp)` with a JavaScript-number comparator. -/
def jsSortWith (cmp : α → α → JNum) (l : List α) : List α :=
  stableSortBy (fun a b => JNum.gtz (cmp a b)) l

/-- `filtered.sort(...)` (`part_000`, lines 30–39). -/
def routeSort (sort_by order : String) (l : List PropRec) : List PropRec :=
  jsSortWith (routeCmp sort_by order) l

/-- `filtered.slice(start, start + limit)` with
`start = (page - 1) * limit` (`part_000`, lines 41–42). -/
def routePaginate (l : List PropRec) (page limit : JNum) : List PropRec :=
  let start := JNum.mul (JNum.sub page (JNum.fin 1)) limit
  jsSlice l start (JNum.add start limit)

/-- `Math.ceil(filtered.length / limit)` (`part_000`, line 48). -/
def routeTotalPages (len : ℕ) (limit : JNum) : JNum :=
  JNum.ceil (JNum.div (JNum.fin (len : ℚ)) limit)

/-- The client component's filter state (`src/property.tsx`, lines 9–18).
The numeric fields are integers: the UI only ever stores `parseInt` results
(range inputs) and integer literals in them. -/
structure FilterState where
  search : String
  sortBy : String
  sortDirection : String
  status : List String
  type : List String
  minPrice : ℤ
  maxPrice : ℤ
  page : ℤ
deriving DecidableEq

/-- The initial / cleared filter state (`property.tsx`, lines 9–18 and
115–126). -/
def initialFilters : FilterState :=
  { search := ""
    sortBy := "last_updated"
    sortDirection := "desc"
    status := []
    type := []
    minPrice := 0
    maxPrice := 1000
    page := 1 }

/-- `buildQuery` (`property.tsx`, lines 27–63) as the ordered key/value pairs
appended to the `URLSearchParams`. -/
def buildQuery (locale : String) (fs : FilterState) : List (String × String) :=
  [("locale", locale)]
  ++ (if jsTrim fs.search = "" then [] else [("search", jsTrim fs.search)])
  ++ [("sortBy", fs.sortBy), ("sortDirection", fs.sortDirection)]
  ++ (if fs.status.isEmpty then [] else [("status", jsJoin ',' fs.status)])
  ++ (if fs.type.isEmpty then [] else [("type", jsJoin ',' fs.type)])
  ++ (if 0 < fs.minPrice then [("minPrice", intToStr fs.minPrice)] else [])
  ++ (if fs.maxPrice < 1000 then [("maxPrice", intToStr fs.maxPrice)] else [])
  ++ [("page", intToStr fs.page), ("limit", "10")]

/-- One `updateFilter(key, value)` call, keyed by which field is set.  The
object literal writes `page: 1` after the computed key, so `page` ends up `1`
even when the key being set is `page` itself. -/
inductive FilterUpd where
  | search (v : String)
  | sortBy (v : String)
  | sortDirection (v : String)
  | status (v : List String)
  | type (v : List String)
  | minPrice (v : ℤ)
  | maxPrice (v : ℤ)
  | page (v : ℤ)

/-- `updateFilter` (`property.tsx`, lines 90–96): spread the previous state,
set the given key, then force `page: 1`. -/
def updateFilter (prev : FilterState) (u : FilterUpd) : FilterState :=
  let mid :=
    match u with
    | FilterUpd.search v => { prev with search := v }
    | FilterUpd.sortBy v => { prev with sortBy := v }
    | FilterUpd.sortDirection v => { prev with sortDirection := v }
    | FilterUpd.status v => { prev with status := v }
    | FilterUpd.type v => { prev with type := v }
    | FilterUpd.minPrice v => { prev with minPrice := v }
    | FilterUpd.maxPrice v => { prev with maxPrice := v }
    | FilterUpd.page v => { prev with page := v }
  { mid with page := 1 }

/-- The two array-valued keys `updateArrayFilter` is called with. -/
inductive ArrKey where
  | status
  | type

/-- The toggle expression inside `updateArrayFilter` (`property.tsx`,
lines 101–103). -/
def toggleArr (arr : List String) (v : String) : List String :=
  if arr.contains v then arr.filter fun item => item ≠ v
  else arr ++ [v]

/-- `updateArrayFilter` (`property.tsx`, lines 98–106). -/
def updateArrayFilter (prev : FilterState) (k : ArrKey) (v : String) : FilterState :=
  match k with
  | ArrKey.status => { prev with status := toggleArr prev.status v, page := 1 }
  | ArrKey.type => { prev with type := toggleArr prev.type v, page := 1 }

/-- `toggleSort` (`property.tsx`, lines 108–113). -/
def toggleSort (prev : FilterState) : FilterState :=
  { prev with sortDirection := if prev.sortDirection = "asc" then "desc" else "asc" }

/-- `changePage` (`property.tsx`, lines 128–133). -/
def changePage (prev : FilterState) (newPage : ℤ) : FilterState :=
  { prev with page := newPage }

/-- Does the built query string carry the given key? -/
def hasKey (ps : List (String × String)) (k : String) : Bool :=
  (getParam ps k).isSome

/-- Spec-side filter predicate, written from the claim's words ("logical AND
of the four clauses"): search clause (empty search, or the lowercased search
is a substring of the lowercased name or the lowercased location), status
membership, category/type membership, and `minimum ≤ price ≤ maximum`
inclusive, with an unset maximum unbounded.  Compared against `routeFilter`
in the C5 theorem. -/
def clauseMatch (s : String) (sts tys : List String) (minQ : ℚ) (maxQ : Option ℚ)
    (p : PropRec) : Bool :=
  (decide (s = "") || strIncludes (jsToLower (p.name.getD "")) (jsToLower s)
    || strIncludes (jsToLower (p.location.getD "")) (jsToLower s))
  && (sts.isEmpty || sts.contains (p.status.getD ""))
  && (tys.isEmpty || tys.contains (p.type.getD ""))
  && decide (minQ ≤ p.price.getD 0)
  && (match maxQ with
      | none => true
      | some mx => decide (p.price.getD 0 ≤ mx))

/-- A record with every field the route inspects present. -/
def totalRec (p : PropRec) : Prop :=
  p.name.isSome ∧ p.location.isSome ∧ p.status.isSome ∧ p.type.isSome ∧ p.price.isSome

instance : DecidablePred totalRec := fun p => by
  unfold totalRec; infer_instance

/-- An unbounded-or-finite maximum price rendered as a JavaScript number. -/
def maxJ (maxQ : Option ℚ) : JNum :=
  match maxQ with
  | none => JNum.inf
  | some mx => JNum.fin mx

/-- The sort key the route's comparator reads for a recognized sort field. -/
def sortKeyOf (f : String) (p : PropRec) : Option ℚ :=
  if f = "price" then p.price
  else if f = "rating" then p.rating
  else if f = "last_updated" then p.last_updated
  else none

deriving instance DecidableEq for Except

/-- Which array-valued filter a given `ArrKey` selects. -/
def arrField (fs : FilterState) (k : ArrKey) : List String :=
  match k with
  | ArrKey.status => fs.status
  | ArrKey.type => fs.type

/-- A concrete, fully populated record (the first mock property of the
component). -/
def exRec0 : PropRec :=
  { name := some "Luxury Sunset Villa"
    location := some "Siem Reap"
    status := some "active"
    type := some "villa"
    price := some 150
    rating := some 5
    last_updated := some 100 }

/-- A second concrete, fully populated record. -/
def exRec1 : PropRec :=
  { name := some "Modern City Apartment"
    location := some "Bangkok"
    status := some "draft"
    type := some "apartment"
    price := some 80
    rating := some 4
    last_updated := some 50 }

/-- A record whose `name` is absent. -/
def noNameRec : PropRec :=
  { name := none
    location := some "Siem Reap"
    status := some "active"
    type := some "villa"
    price := some 5
    rating := none
    last_updated := none }

/-- A record whose `status` is absent. -/
def noStatusRec : PropRec :=
  { name := some "Beachfront House"
    location := some "Phuket"
    status := none
    type := some "house"
    price := some 200
    rating := none
    last_updated := none }

/-- A filter state whose search box holds a single space. -/
def fsWhitespaceSearch : FilterState := { initialFilters with search := " " }

/-- A filter state sorting by price. -/
def fsSortPrice : FilterState := { initialFilters with sortBy := "price" }

/-- A filter state with one status filter and a price window. -/
def fsRich : FilterState :=
  { search := " Villa "
    sortBy := "price"
    sortDirection := "asc"
    status := ["active", "draft"]
    type := ["villa"]
    minPrice := 50
    maxPrice := 400
    page := 3 }

section Helpers

/-- `jsToLower` sends only the empty string to the empty string. -/
theorem jsToLower_eq_empty_iff (s : String) : jsToLower s = "" ↔ s = "" := by
  constructor
  · intro h
    have hd : s.data.map Char.toLower = ("" : String).data := congrArg String.data h
    have hnil : s.data = [] := by simpa using hd
    exact String.ext hnil
  · intro h
    subst h
    rfl

/-- `Array.prototype.filter` with an error-free predicate is `List.filter`. -/
theorem filterE_ok (f : α → Except ε Bool) (g : α → Bool) (l : List α)
    (h : ∀ x ∈ l, f x = Except.ok (g x)) :
    filterE f l = Except.ok (l.filter g) := by
  induction l with
  | nil => rfl
  | cons x xs ih =>
      have hx := h x (List.mem_cons_self x xs)
      have ihh := ih fun y hy => h y (List.mem_cons_of_mem x hy)
      simp [filterE, hx, ihh, List.filter_cons]
      by_cases hg : g x <;> simp [hg, Bind.bind, Except.bind]

/-- On a record with every inspected field present, the route's per-record
predicate never throws and computes exactly the four-clause conjunction of
the specification. -/
theorem recPred_total (s : String) (sts tys : List String) (minQ : ℚ)
    (maxQ : Option ℚ) (p : PropRec) (hp : totalRec p) :
    recPred (jsToLower s) sts tys (JNum.fin minQ) (maxJ maxQ) p =
      Except.ok (clauseMatch s sts tys minQ maxQ p) := by
  obtain ⟨hn, hl, hs, ht, hpr⟩ := hp
  obtain ⟨nm, hnm⟩ := Option.isSome_iff_exists.mp hn
  obtain ⟨loc, hloc⟩ := Option.isSome_iff_exists.mp hl
  obtain ⟨st, hst⟩ := Option.isSome_iff_exists.mp hs
  obtain ⟨ty, hty⟩ := Option.isSome_iff_exists.mp ht
  obtain ⟨pr, hpr'⟩ := Option.isSome_iff_exists.mp hpr
  by_cases hse : s = ""
  · subst hse
    simp [recPred, searchClauseE, clauseMatch, statusClause, typeClause,
      hnm, hloc, hst, hty, hpr', optJ, maxJ, JNum.ge, JNum.le, jsToLower]
    cases maxQ <;> simp [JNum.le, Bool.and_assoc]
  · have hse' : ¬ jsToLower s = "" := fun h => hse ((jsToLower_eq_empty_iff s).mp h)
    simp [recPred, searchClauseE, clauseMatch, statusClause, typeClause, hse, hse',
      hnm, hloc, hst, hty, hpr', optJ, maxJ, JNum.ge, JNum.le]
    by_cases hincl : strIncludes (jsToLower nm) (jsToLower s)
    · cases maxQ <;> simp [hincl, JNum.le, Bool.and_assoc]
    · cases maxQ <;> simp [hincl, JNum.le, Bool.and_assoc]

/-- Inserting an element the filter rejects does not change the filtered
sequence. -/
theorem sortInsert_filter_of_neg (test : α → α → Bool) (q : α → Bool) (b : α)
    (hb : q b = false) (l : List α) :
    (sortInsert test b l).filter q = l.filter q := by
  induction l with
  | nil => simp [sortInsert, hb]
  | cons y ys ih =>
      by_cases h : test b y
      · simp [sortInsert, h, List.filter_cons, ih]
      · simp [sortInsert, h, List.filter_cons, hb]

/-- Inserting an element the filter keeps, which never has to go after
another kept element, puts it at the head of the filtered sequence. -/
theorem sortInsert_filter_of_pos (test : α → α → Bool) (q : α → Bool) (b : α)
    (hb : q b = true) (hskip : ∀ y, q y = true → test b y = false)
    (l : List α) :
    (sortInsert test b l).filter q = b :: l.filter q := by
  induction l with
  | nil => simp [sortInsert, hb]
  | cons y ys ih =>
      by_cases h : test b y
      · have hy : q y = false := by
          by_contra hqy
          have := hskip y (Bool.of_not_eq_false hqy)
          simp [this] at h
        simp [sortInsert, h, List.filter_cons, hy, ih]
      · simp [sortInsert, h, List.filter_cons, hb]

/-- Stability of `stableSortBy`: elements on which the "must go after" test
never fires among themselves keep their relative order. -/
theorem stableSortBy_filter (test : α → α → Bool) (q : α → Bool)
    (h : ∀ a b, q a = true → q b = true → test a b = false) :
    ∀ l : List α, (stableSortBy test l).filter q = l.filter q := by
  intro l
  induction l with
  | nil => rfl
  | cons b t ih =>
      by_cases hb : q b
      · rw [stableSortBy, sortInsert_filter_of_pos test q b hb (fun y hy => h b y hb hy), ih]
        simp [List.filter_cons, hb]
      · rw [stableSortBy, sortInsert_filter_of_neg test q b (Bool.eq_false_iff.mpr hb), ih]
        simp [List.filter_cons, hb]

/-- A sort whose test never fires is the identity. -/
theorem stableSortBy_of_test_false (test : α → α → Bool)
    (h : ∀ a b, test a b = false) : ∀ l : List α, stableSortBy test l = l := by
  intro l
  induction l with
  | nil => rfl
  | cons b t ih =>
      rw [stableSortBy, ih]
      cases t with
      | nil => rfl
      | cons y ys => simp [sortInsert, h]

/-- The comparator value of two equal optional keys is never strictly
positive (`NaN` for two absent keys, `0` for two equal present ones). -/
theorem gtz_sub_optJ_self (o : Option ℚ) :
    JNum.gtz (JNum.sub (optJ o) (optJ o)) = false := by
  cases o <;> simp [optJ, JNum.sub, JNum.add, JNum.neg, JNum.gtz, JNum.lt]

end Helpers

section QueryLemmas

/-- The value `buildQuery` gives the `search` key. -/
theorem getParam_buildQuery_search (loc : String) (fs : FilterState) :
    getParam (buildQuery loc fs) "search" =
      if jsTrim fs.search = "" then none else some (jsTrim fs.search) := by
  simp only [buildQuery, getParam]
  split_ifs <;> rfl

/-- `sortBy` is always emitted. -/
theorem getParam_buildQuery_sortBy (loc : String) (fs : FilterState) :
    getParam (buildQuery loc fs) "sortBy" = some fs.sortBy := by
  simp only [buildQuery, getParam]
  split_ifs <;> rfl

/-- `sortDirection` is always emitted. -/
theorem getParam_buildQuery_sortDirection (loc : String) (fs : FilterState) :
    getParam (buildQuery loc fs) "sortDirection" = some fs.sortDirection := by
  simp only [buildQuery, getParam]
  split_ifs <;> rfl

/-- The value `buildQuery` gives the `status` key. -/
theorem getParam_buildQuery_status (loc : String) (fs : FilterState) :
    getParam (buildQuery loc fs) "status" =
      if fs.status.isEmpty then none else some (jsJoin ',' fs.status) := by
  simp only [buildQuery, getParam]
  split_ifs <;> rfl

/-- The value `buildQuery` gives the `type` key. -/
theorem getParam_buildQuery_type (loc : String) (fs : FilterState) :
    getParam (buildQuery loc fs) "type" =
      if fs.type.isEmpty then none else some (jsJoin ',' fs.type) := by
  simp only [buildQuery, getParam]
  split_ifs <;> rfl

/-- The value `buildQuery` gives the `minPrice` key. -/
theorem getParam_buildQuery_minPrice (loc : String) (fs : FilterState) :
    getParam (buildQuery loc fs) "minPrice" =
      if 0 < fs.minPrice then some (intToStr fs.minPrice) else none := by
  simp only [buildQuery, getParam]
  split_ifs <;> rfl

/-- The value `buildQuery` gives the `maxPrice` key. -/
theorem getParam_buildQuery_maxPrice (loc : String) (fs : FilterState) :
    getParam (buildQuery loc fs) "maxPrice" =
      if fs.maxPrice < 1000 then some (intToStr fs.maxPrice) else none := by
  simp only [buildQuery, getParam]
  split_ifs <;> rfl

/-- `page` is always emitted. -/
theorem getParam_buildQuery_page (loc : String) (fs : FilterState) :
    getParam (buildQuery loc fs) "page" = some (intToStr fs.page) := by
  simp only [buildQuery, getParam]
  split_ifs <;> rfl

/-- `limit` is always emitted, as the constant `"10"`. -/
theorem getParam_buildQuery_limit (loc : String) (fs : FilterState) :
    getParam (buildQuery loc fs) "limit" = some "10" := by
  simp only [buildQuery, getParam]
  split_ifs <;> rfl

/-- The route's snake_case keys never occur in the built query. -/
theorem getParam_buildQuery_snake (loc : String) (fs : FilterState) :
    getParam (buildQuery loc fs) "sort_by" = none
      ∧ getParam (buildQuery loc fs) "order" = none
      ∧ getParam (buildQuery loc fs) "min_price" = none
      ∧ getParam (buildQuery loc fs) "max_price" = none := by
  refine ⟨?_, ?_, ?_, ?_⟩ <;>
    (simp only [buildQuery, getParam]; split_ifs <;> rfl)

end QueryLemmas

section DigitLemmas

/-- Folding decimal digits most-significant-first computes the number whose
little-endian digit list was reversed. -/
theorem foldl_digit_step (L : List ℕ) (acc : ℕ) :
    L.reverse.foldl (fun a d => a * 10 + d) acc
      = acc * 10 ^ L.length + Nat.ofDigits 10 L := by
  induction L generalizing acc with
  | nil => simp
  | cons d T ih =>
      rw [List.reverse_cons, List.foldl_append, ih]
      simp [Nat.ofDigits_cons, pow_succ]
      ring

/-- The printed character of a decimal digit: a digit character, neither
whitespace nor a sign, decoding back to the same digit. -/
theorem digitCh_spec (d : ℕ) (hd : d < 10) :
    isDigitCh (Char.ofNat (48 + d)) = true ∧ digitVal (Char.ofNat (48 + d)) = d
      ∧ (Char.ofNat (48 + d)).isWhitespace = false
      ∧ Char.ofNat (48 + d) ≠ '-' ∧ Char.ofNat (48 + d) ≠ '+' := by
  interval_cases d <;> exact ⟨by decide, by decide, by decide, by decide, by decide⟩

/-- `takeDigits` consumes a printed digit list completely. -/
theorem takeDigits_map_digitCh (ds : List ℕ) (h : ∀ d ∈ ds, d < 10) :
    takeDigits (ds.map fun d => Char.ofNat (48 + d)) = (ds, []) := by
  induction ds with
  | nil => rfl
  | cons d T ih =>
      have hd := digitCh_spec d (h d (by simp))
      have ihh := ih fun x hx => h x (by simp [hx])
      simp [takeDigits, hd.1, hd.2.1, ihh]

/-- `parseInt` of a nonempty printed digit string. -/
theorem parseIntJS_mk_digits (d : ℕ) (T : List ℕ) (h : ∀ x ∈ d :: T, x < 10) :
    parseIntJS (String.mk ((d :: T).map fun x => Char.ofNat (48 + x)))
      = JNum.fin (digitsToNat (d :: T) : ℚ) := by
  have hd := digitCh_spec d (h d (by simp))
  have htd := takeDigits_map_digitCh (d :: T) h
  simp only [parseIntJS, List.map_cons] at htd ⊢
  rw [show dropWs (Char.ofNat (48 + d) :: T.map fun x => Char.ofNat (48 + x))
        = Char.ofNat (48 + d) :: T.map (fun x => Char.ofNat (48 + x)) from by
      simp [dropWs, List.dropWhile, hd.2.2.1]]
  rw [show takeSign (Char.ofNat (48 + d) :: T.map fun x => Char.ofNat (48 + x))
        = (1, Char.ofNat (48 + d) :: T.map fun x => Char.ofNat (48 + x)) from by
      simp [takeSign, hd.2.2.2.1, hd.2.2.2.2]]
  simp [htd]

/-- Decoding the reversed digit list of `n` recovers `n`. -/
theorem digitsToNat_digits_reverse (n : ℕ) :
    digitsToNat ((Nat.digits 10 n).reverse) = n := by
  rw [digitsToNat, foldl_digit_step]
  simp [Nat.ofDigits_digits]

/-- `parseInt` inverts the decimal printing of a natural number. -/
theorem parseIntJS_natToStr (n : ℕ) : parseIntJS (natToStr n) = JNum.fin (n : ℚ) := by
  by_cases h0 : n = 0
  · subst h0; decide
  · have hne : (Nat.digits 10 n).reverse ≠ [] := by
      simp [Nat.digits_ne_nil_iff_ne_zero, h0]
    obtain ⟨d, T, hdT⟩ := List.exists_cons_of_ne_nil hne
    have hlt : ∀ x ∈ d :: T, x < 10 := by
      intro x hx
      rw [← hdT] at hx
      exact Nat.digits_lt_base (by norm_num) (List.mem_reverse.mp hx)
    rw [natToStr, if_neg h0, hdT, parseIntJS_mk_digits d T hlt, ← hdT,
      digitsToNat_digits_reverse]

end DigitLemmas

/-- `parseInt` of a sign-prefixed printed digit string. -/
theorem parseIntJS_neg_mk (d : ℕ) (T : List ℕ) (h : ∀ x ∈ d :: T, x < 10) :
    parseIntJS (String.mk ('-' :: (d :: T).map fun x => Char.ofNat (48 + x)))
      = JNum.fin (-(digitsToNat (d :: T) : ℚ)) := by
  have hd := digitCh_spec d (h d (by simp))
  have htd := takeDigits_map_digitCh (d :: T) h
  simp only [parseIntJS, List.map_cons] at htd ⊢
  rw [show dropWs ('-' :: Char.ofNat (48 + d) :: T.map fun x => Char.ofNat (48 + x))
        = '-' :: Char.ofNat (48 + d) :: T.map (fun x => Char.ofNat (48 + x)) from by
      simp [dropWs, List.dropWhile]]
  rw [show takeSign ('-' :: Char.ofNat (48 + d) :: T.map fun x => Char.ofNat (48 + x))
        = (-1, Char.ofNat (48 + d) :: T.map fun x => Char.ofNat (48 + x)) from by
      simp [takeSign]]
  simp [htd]

/-- `parseInt` inverts the decimal printing of an integer double. -/
theorem parseIntJS_intToStr (n : ℤ) : parseIntJS (intToStr n) = JNum.fin (n : ℚ) := by
  by_cases hn : n < 0
  · have h0 : (-n).toNat ≠ 0 := by omega
    have hne : (Nat.digits 10 (-n).toNat).reverse ≠ [] := by
      simp [Nat.digits_ne_nil_iff_ne_zero, h0]
    obtain ⟨d, T, hdT⟩ := List.exists_cons_of_ne_nil hne
    have hlt : ∀ x ∈ d :: T, x < 10 := by
      intro x hx
      rw [← hdT] at hx
      exact Nat.digits_lt_base (by norm_num) (List.mem_reverse.mp hx)
    have hdata : ("-" ++ natToStr (-n).toNat).data
        = '-' :: (d :: T).map fun x => Char.ofNat (48 + x) := by
      rw [String.data_append, natToStr, if_neg h0, hdT]
      rfl
    have : parseIntJS ("-" ++ natToStr (-n).toNat)
        = JNum.fin (-(digitsToNat (d :: T) : ℚ)) := by
      have hmk : "-" ++ natToStr (-n).toNat
          = String.mk ('-' :: (d :: T).map fun x => Char.ofNat (48 + x)) :=
        String.ext hdata
      rw [hmk, parseIntJS_neg_mk d T hlt]
    rw [intToStr, if_pos hn, this, ← hdT, digitsToNat_digits_reverse]
    congr 1
    exact_mod_cast (by omega : -((((-n).toNat : ℕ)) : ℤ) = n)
  · rw [intToStr, if_neg hn, parseIntJS_natToStr]
    congr 1
    exact_mod_cast (by omega : (((n.toNat : ℕ)) : ℤ) = n)

section SplitJoinLemmas

/-- Splitting a separator-free character list yields one part. -/
theorem splitChars_no_sep (sep : Char) (x : List Char) (h : sep ∉ x) :
    splitChars sep x = [x] := by
  induction x with
  | nil => rfl
  | cons c rest ih =>
      have hc : ¬ c = sep := by
        intro e
        exact h (e ▸ List.mem_cons_self c rest)
      have ihh := ih fun hm => h (List.mem_cons_of_mem _ hm)
      simp [splitChars, hc, ihh]

/-- Splitting past a separator-free first part peels it off. -/
theorem splitChars_append_sep (sep : Char) (x rest : List Char) (h : sep ∉ x) :
    splitChars sep (x ++ sep :: rest) = x :: splitChars sep rest := by
  induction x with
  | nil => simp [splitChars]
  | cons c x' ih =>
      have hc : ¬ c = sep := by
        intro e
        exact h (e ▸ List.mem_cons_self c x')
      have ihh := ih fun hm => h (List.mem_cons_of_mem _ hm)
      simp [splitChars, hc, ihh]

/-- `split(sep)` inverts `join(sep)` on a nonempty list of separator-free
parts. -/
theorem splitChars_joinChars (sep : Char) (L : List (List Char)) (hL : L ≠ [])
    (hsep : ∀ l ∈ L, sep ∉ l) : splitChars sep (joinChars sep L) = L := by
  induction L with
  | nil => exact absurd rfl hL
  | cons x xs ih =>
      cases xs with
      | nil => simpa [joinChars] using splitChars_no_sep sep x (hsep x (by simp))
      | cons y t =>
          have hj : joinChars sep (x :: y :: t) = x ++ sep :: joinChars sep (y :: t) := rfl
          rw [hj, splitChars_append_sep sep x _ (hsep x (by simp)),
            ih (by simp) fun l hl => hsep l (List.mem_cons_of_mem _ hl)]

/-- String-level round trip of the route's `split(',')` against the client's
`join(',')`. -/
theorem jsSplit_jsJoin (sep : Char) (parts : List String) (hp : parts ≠ [])
    (hsep : ∀ p ∈ parts, sep ∉ p.data) :
    jsSplit sep (jsJoin sep parts) = parts := by
  unfold jsSplit jsJoin
  rw [show (String.mk (joinChars sep (parts.map String.data))).data
        = joinChars sep (parts.map String.data) from rfl]
  rw [splitChars_joinChars sep _ (by simpa using hp) (by
    intro l hl
    obtain ⟨p, hpmem, rfl⟩ := List.mem_map.mp hl
    exact hsep p hpmem)]
  rw [List.map_map]
  have : ∀ p ∈ parts, (String.mk ∘ String.data) p = p := by
    intro p _
    cases p
    rfl
  rw [List.map_congr_left this]
  simp

end SplitJoinLemmas

section MoreHelpers

/-- Decimal printing never produces the empty string. -/
theorem natToStr_ne_empty (n : ℕ) : natToStr n ≠ "" := by
  by_cases h : n = 0
  · subst h; decide
  · intro he
    have hne : (Nat.digits 10 n).reverse ≠ [] := by
      simp [Nat.digits_ne_nil_iff_ne_zero, h]
    rw [natToStr, if_neg h] at he
    have : ((Nat.digits 10 n).reverse.map fun d => Char.ofNat (48 + d)) = [] := by
      simpa using congrArg String.data he
    exact hne (List.map_eq_nil_iff.mp this)

/-- Integer printing never produces the empty string. -/
theorem intToStr_ne_empty (n : ℤ) : intToStr n ≠ "" := by
  by_cases hn : n < 0
  · rw [intToStr, if_pos hn]
    intro he
    have : ('-' :: (natToStr (-n).toNat).data) = ([] : List Char) := by
      have hd := congrArg String.data he
      rwa [String.data_append] at hd
    simp at this
  · rw [intToStr, if_neg hn]
    exact natToStr_ne_empty _

/-- Truncation toward zero fixes integers. -/
theorem truncQ_intCast (n : ℤ) : truncQ (n : ℚ) = n := by
  unfold truncQ
  split_ifs <;> simp

/-- With `name` and `location` present the search clause cannot throw. -/
theorem searchClauseE_total (s : String) (p : PropRec)
    (hn : p.name.isSome) (hl : p.location.isSome) :
    ∃ b : Bool, searchClauseE s p = Except.ok b := by
  obtain ⟨nm, hnm⟩ := Option.isSome_iff_exists.mp hn
  obtain ⟨loc, hloc⟩ := Option.isSome_iff_exists.mp hl
  unfold searchClauseE
  rw [hnm, hloc]
  simp only []
  split_ifs
  · exact ⟨true, rfl⟩
  · exact ⟨true, rfl⟩
  · exact ⟨strIncludes (jsToLower loc) s, rfl⟩

/-- Toggling membership: the value flips, every other element is kept. -/
theorem toggleArr_spec (arr : List String) (v : String) :
    ((v ∈ toggleArr arr v) ↔ v ∉ arr)
      ∧ (toggleArr arr v).filter (fun w => w ≠ v) = arr.filter (fun w => w ≠ v) := by
  unfold toggleArr
  by_cases hv : arr.contains v
  · have hvm : v ∈ arr := by simpa using hv
    rw [if_pos hv]
    constructor
    · simp [List.mem_filter, hvm]
    · rw [List.filter_filter]
      apply List.filter_congr
      intro x _
      by_cases hx : x = v <;> simp [hx]
  · have hvm : v ∉ arr := by simpa using hv
    rw [if_neg hv]
    constructor
    · simp [hvm]
    · rw [List.filter_append]
      simp

end MoreHelpers

/-- C6: for every filtered sequence and every sort field outside
{price, rating, last_updated}, the route's sorter returns the sequence
unmodified in its filtered order — a defined no-op, not an error. -/
theorem C6_sorter_unknown_noop (f ord : String) (l : List PropRec)
    (hf : f ≠ "price" ∧ f ≠ "rating" ∧ f ≠ "last_updated") :
    routeSort f ord l = l := by
  unfold routeSort jsSortWith
  apply stableSortBy_of_test_false
  intro a b
  simp [routeCmp, hf.1, hf.2.1, hf.2.2, JNum.gtz, JNum.lt]

/-- Witness for C6 at the unrecognized sort field `"name"`. -/
theorem C6_sorter_unknown_noop_witness :
    ("name" ≠ "price" ∧ "name" ≠ "rating" ∧ "name" ≠ "last_updated")
      ∧ routeSort "name" "asc" [exRec0, exRec1] = [exRec0, exRec1] :=
  ⟨by decide, C6_sorter_unknown_noop "name" "asc" [exRec0, exRec1] (by decide)⟩

/-- C7: for every input sequence, recognized sort field and direction, the
route's sorter is stable: records with equal sort keys keep their relative
input order (stated as: the subsequence of records carrying any fixed sort
key is unchanged by sorting). -/
theorem C7_sorter_stable (f ord : String) (l : List PropRec) (k : Option ℚ)
    (hf : f = "price" ∨ f = "rating" ∨ f = "last_updated") :
    (routeSort f ord l).filter (fun p => decide (sortKeyOf f p = k))
      = l.filter (fun p => decide (sortKeyOf f p = k)) := by
  unfold routeSort jsSortWith
  apply stableSortBy_filter
  intro a b ha hb
  have ha' : sortKeyOf f a = k := of_decide_eq_true ha
  have hb' : sortKeyOf f b = k := of_decide_eq_true hb
  rcases hf with hf | hf | hf <;> subst hf <;>
    simp +decide only [sortKeyOf, reduceIte] at ha' hb' <;>
    by_cases hord : ord = "asc" <;>
    simp +decide [routeCmp, fieldJ, hord, ha', hb', gtz_sub_optJ_self]

/-- Witness for C7 at the field `"price"`, ascending, and key 150. -/
theorem C7_sorter_stable_witness :
    ("price" = "price" ∨ "price" = "rating" ∨ "price" = "last_updated")
      ∧ (routeSort "price" "asc" [exRec0, exRec1]).filter
          (fun p => decide (sortKeyOf "price" p = some 150))
        = [exRec0, exRec1].filter (fun p => decide (sortKeyOf "price" p = some 150)) :=
  ⟨Or.inl rfl,
    C7_sorter_stable "price" "asc" [exRec0, exRec1] (some 150) (Or.inl rfl)⟩

/-- C9: `updateFilter` and `updateArrayFilter` always reset `page` to 1,
whatever the previous state, key and value; `toggleSort` and `changePage` do
not have this property. -/
theorem C9_page_reset :
    (∀ (prev : FilterState) (u : FilterUpd), (updateFilter prev u).page = 1)
    ∧ (∀ (prev : FilterState) (k : ArrKey) (v : String),
        (updateArrayFilter prev k v).page = 1)
    ∧ (∃ prev : FilterState, (toggleSort prev).page ≠ 1)
    ∧ (∃ (prev : FilterState) (n : ℤ), (changePage prev n).page ≠ 1) := by
  refine ⟨?_, ?_, ?_, ?_⟩
  · intro prev u
    cases u <;> rfl
  · intro prev k v
    cases k <;> rfl
  · exact ⟨{ initialFilters with page := 2 }, by decide⟩
  · exact ⟨initialFilters, 2, by decide⟩

/-- C10: a single `updateArrayFilter` call toggles membership of the value in
the selected array — the value is in the result iff it was not there before —
and preserves every other element (the subsequence of non-`v` elements is
unchanged). -/
theorem C10_toggle_membership (prev : FilterState) (k : ArrKey) (v : String) :
    ((v ∈ arrField (updateArrayFilter prev k v) k) ↔ v ∉ arrField prev k)
      ∧ (arrField (updateArrayFilter prev k v) k).filter (fun w => w ≠ v)
        = (arrField prev k).filter (fun w => w ≠ v) := by
  cases k
  · exact toggleArr_spec prev.status v
  · exact toggleArr_spec prev.type v

/-- C5: on records carrying every inspected field, the route's filterer keeps
exactly the records satisfying the logical AND of the four clauses of the
specification — search substring (case-insensitive, on name or location),
status membership, type membership, and `minimum ≤ price ≤ maximum` inclusive
with an unset maximum unbounded — and, being a `List.filter`, preserves the
original relative order of the kept records.  (The route hands the filterer
the already-lowercased search string, hence `jsToLower s`.) -/
theorem C5_filterer_correct (s : String) (sts tys : List String) (minQ : ℚ)
    (maxQ : Option ℚ) (l : List PropRec) (hl : ∀ p ∈ l, totalRec p) :
    routeFilter (jsToLower s) sts tys (JNum.fin minQ) (maxJ maxQ) l
      = Except.ok (l.filter (clauseMatch s sts tys minQ maxQ)) := by
  unfold routeFilter
  exact filterE_ok _ _ l fun p hp => recPred_total s sts tys minQ maxQ p (hl p hp)

/-- Witness for C5: a search for "VILLA" with a minimum price of 60 keeps
exactly the first example record. -/
theorem C5_filterer_correct_witness :
    (∀ p ∈ [exRec0, exRec1], totalRec p)
      ∧ routeFilter (jsToLower "VILLA") [] [] (JNum.fin 60) (maxJ none) [exRec0, exRec1]
        = Except.ok [exRec0] := by
  refine ⟨by decide, ?_⟩
  rw [C5_filterer_correct "VILLA" [] [] 60 none [exRec0, exRec1] (by decide)]
  decide

/-- C4 fails as stated: a record with an absent `name` meets a non-empty
search clause and the filter predicate throws a `TypeError` (and so does the
whole filterer call) instead of treating the record as non-matching. -/
theorem C4_counterexample :
    recPred "a" [] [] (JNum.fin 0) JNum.inf noNameRec = Except.error "TypeError"
      ∧ routeFilter "a" [] [] (JNum.fin 0) JNum.inf [noNameRec]
        = Except.error "TypeError" := by
  decide

/-- C4 amended: an absent `status`, `type` or `price` field makes the record
non-matching with no error — but only the clauses other than the search
clause enjoy this; the search clause requires `name` and `location` to be
present (an absent `name` under a non-empty search throws, see the
counterexample). -/
theorem C4_amended_absent_fields (s : String) (sts tys : List String)
    (mn mx : JNum) (p : PropRec)
    (hname : p.name.isSome) (hloc : p.location.isSome) :
    (p.status = none → sts ≠ [] → recPred s sts tys mn mx p = Except.ok false)
    ∧ (p.type = none → tys ≠ [] → recPred s sts tys mn mx p = Except.ok false)
    ∧ (p.price = none → recPred s sts tys mn mx p = Except.ok false) := by
  obtain ⟨b, hb⟩ := searchClauseE_total s p hname hloc
  refine ⟨?_, ?_, ?_⟩
  · intro hst hsts
    simp [recPred, hb, statusClause, hst, hsts, List.isEmpty_iff]
  · intro hty htys
    simp [recPred, hb, typeClause, hty, htys, List.isEmpty_iff]
  · intro hpr
    simp [recPred, hb, hpr, optJ, JNum.ge, JNum.le]

/-- Witness for C4 amended: a record without a `status`, against an active
status clause, is simply rejected. -/
theorem C4_amended_absent_fields_witness :
    (noStatusRec.status = none ∧ ["active"] ≠ ([] : List String))
      ∧ recPred "" ["active"] [] (JNum.fin 0) JNum.inf noStatusRec = Except.ok false :=
  ⟨⟨rfl, by decide⟩,
    (C4_amended_absent_fields "" ["active"] [] (JNum.fin 0) JNum.inf noStatusRec
      (by decide) (by decide)).1 rfl (by decide)⟩

/-- The fallback string `"0"` parses to the number 0. -/
theorem parseFloatJS_zero : parseFloatJS "0" = JNum.fin 0 := by
  have h : "0".data = ['0'] := rfl
  simp +decide [parseFloatJS, h, dropWs, takeSign, takeDigits, isDigitCh, digitVal,
    takeExpo, digitsToNat, scalePow10, List.dropWhile]

/-- The fallback string `"Infinity"` parses to `+Infinity`. -/
theorem parseFloatJS_infinity : parseFloatJS "Infinity" = JNum.inf := by
  decide

/-- C3 fails as stated: a present but non-numeric `min_price` is parsed to
`NaN`, not to the fallback `0` — and under `NaN` the route's filter drops a
record that the fallback `0` would keep. -/
theorem C3_counterexample :
    (routeParse [("min_price", "x")]).minPrice = JNum.nan
      ∧ JNum.nan ≠ JNum.fin 0
      ∧ routeFilter (routeParse [("min_price", "x")]).search
          (routeParse [("min_price", "x")]).status
          (routeParse [("min_price", "x")]).type
          (routeParse [("min_price", "x")]).minPrice
          (routeParse [("min_price", "x")]).maxPrice
          [exRec0] = Except.ok []
      ∧ routeFilter "" [] [] (JNum.fin 0) JNum.inf [exRec0] = Except.ok [exRec0] := by
  decide

/-- C3 amended: only an absent or empty-string numeric parameter is coerced
to its fallback (`min_price` 0, `max_price` unbounded, `page` 1, `limit` 10);
a present non-numeric value parses to `NaN` instead, under which the price
comparisons reject every record and the pagination slice is empty — the
request is still answered, never rejected. -/
theorem C3_amended_coercion :
    (∀ ps, (getParam ps "min_price" = none ∨ getParam ps "min_price" = some "")
        → (routeParse ps).minPrice = JNum.fin 0)
    ∧ (∀ ps, (getParam ps "max_price" = none ∨ getParam ps "max_price" = some "")
        → (routeParse ps).maxPrice = JNum.inf)
    ∧ (∀ ps, (getParam ps "page" = none ∨ getParam ps "page" = some "")
        → (routeParse ps).page = JNum.fin 1)
    ∧ (∀ ps, (getParam ps "limit" = none ∨ getParam ps "limit" = some "")
        → (routeParse ps).limit = JNum.fin 10)
    ∧ (∀ (s : String) (sts tys : List String) (mx : JNum) (l : List PropRec),
        (∀ p ∈ l, p.name.isSome ∧ p.location.isSome)
        → routeFilter s sts tys JNum.nan mx l = Except.ok [])
    ∧ (∀ (l : List PropRec) (lim : JNum), routePaginate l JNum.nan lim = []) := by
  refine ⟨?_, ?_, ?_, ?_, ?_, ?_⟩
  · intro ps h
    have hv : orDefault (getParam ps "min_price") "0" = "0" := by
      rcases h with h | h <;> simp [h, orDefault]
    simp [routeParse, hv, parseFloatJS_zero]
  · intro ps h
    have hv : orDefault (getParam ps "max_price") "Infinity" = "Infinity" := by
      rcases h with h | h <;> simp [h, orDefault]
    simp [routeParse, hv, parseFloatJS_infinity]
  · intro ps h
    have hv : orDefault (getParam ps "page") "1" = "1" := by
      rcases h with h | h <;> simp [h, orDefault]
    simp [routeParse, hv]
    decide
  · intro ps h
    have hv : orDefault (getParam ps "limit") "10" = "10" := by
      rcases h with h | h <;> simp [h, orDefault]
    simp [routeParse, hv]
    decide
  · intro s sts tys mx l hl
    unfold routeFilter
    rw [filterE_ok _ (fun _ => false) l ?_, List.filter_false]
    intro p hp
    obtain ⟨b, hb⟩ := searchClauseE_total s p (hl p hp).1 (hl p hp).2
    simp [recPred, hb, JNum.ge, JNum.le]
  · intro l lim
    cases lim <;> rfl

/-- Witness for C3 amended: an empty `min_price` falls back to 0; a `NaN`
minimum price keeps no record; a `NaN` page yields an empty slice. -/
theorem C3_amended_coercion_witness :
    (routeParse [("min_price", "")]).minPrice = JNum.fin 0
      ∧ routeFilter "" [] [] JNum.nan JNum.inf [exRec0] = Except.ok []
      ∧ routePaginate [exRec0] JNum.nan (JNum.fin 10) = [] :=
  ⟨C3_amended_coercion.1 [("min_price", "")] (Or.inr rfl),
    C3_amended_coercion.2.2.2.2.1 "" [] [] JNum.inf [exRec0] (by decide),
    C3_amended_coercion.2.2.2.2.2 [exRec0] (JNum.fin 10)⟩

/-- C2 fails as stated: with two records, page size 1 and page number −1
(below 1), the route's `slice` treats the negative start as an offset from
the end and returns a non-empty page (the first record). -/
theorem C2_counterexample :
    routePaginate [exRec0, exRec1] (JNum.fin (-1)) (JNum.fin 1) = [exRec0]
      ∧ [exRec0] ≠ ([] : List PropRec) := by
  refine ⟨?_, by decide⟩
  show jsSlice [exRec0, exRec1]
      (JNum.mul (JNum.sub (JNum.fin (-1)) (JNum.fin 1)) (JNum.fin 1))
      (JNum.add (JNum.mul (JNum.sub (JNum.fin (-1)) (JNum.fin 1)) (JNum.fin 1))
        (JNum.fin 1)) = [exRec0]
  have h1 : JNum.mul (JNum.sub (JNum.fin (-1)) (JNum.fin 1)) (JNum.fin 1)
      = JNum.fin (-2) := by
    simp [JNum.sub, JNum.add, JNum.neg, JNum.mul]
    norm_num
  have h2 : JNum.add (JNum.fin (-2)) (JNum.fin 1) = JNum.fin (-1) := by
    simp [JNum.add]
    norm_num
  rw [h1, h2]
  have ha : resolveIdx 2 (JNum.fin (-2)) = 0 := by
    simp [resolveIdx, truncQ]
    decide
  have hb : resolveIdx 2 (JNum.fin (-1)) = 1 := by
    simp [resolveIdx, truncQ]
    decide
  simp [jsSlice, ha, hb]

/-- C2 amended: with a positive page size, page number 0 and every page
number beyond `totalPages` yield an empty slice (and no error); page numbers
below 0 are instead interpreted by `slice` as offsets from the end of the
sequence and can yield a non-empty slice (see the counterexample). -/
theorem C2_amended_paginator (l : List PropRec) (page limit : ℤ)
    (hlim : 0 < limit)
    (hpage : page = 0
      ∨ JNum.lt (routeTotalPages l.length (JNum.fin (limit : ℚ)))
          (JNum.fin (page : ℚ)) = true) :
    routePaginate l (JNum.fin (page : ℚ)) (JNum.fin (limit : ℚ)) = [] := by
  show jsSlice l
      (JNum.mul (JNum.sub (JNum.fin (page : ℚ)) (JNum.fin 1)) (JNum.fin (limit : ℚ)))
      (JNum.add
        (JNum.mul (JNum.sub (JNum.fin (page : ℚ)) (JNum.fin 1)) (JNum.fin (limit : ℚ)))
        (JNum.fin (limit : ℚ))) = []
  have h1 : JNum.mul (JNum.sub (JNum.fin (page : ℚ)) (JNum.fin 1)) (JNum.fin (limit : ℚ))
      = JNum.fin ((((page - 1) * limit : ℤ) : ℚ)) := by
    show JNum.fin (((page : ℚ) + -1) * (limit : ℚ)) = _
    congr 1
    push_cast
    ring
  rw [h1]
  rcases hpage with hpage | hpage
  · subst hpage
    have h2 : JNum.add (JNum.fin ((((0 - 1) * limit : ℤ) : ℚ))) (JNum.fin (limit : ℚ))
        = JNum.fin 0 := by
      show JNum.fin (_ + _) = _
      congr 1
      push_cast
      ring
    rw [h2]
    have hb : resolveIdx l.length (JNum.fin 0) = 0 := by
      simp [resolveIdx, truncQ]
    simp only [jsSlice, hb]
    simp
  · have hLQ : ((limit : ℚ)) ≠ 0 := by
      have hpos : (0 : ℚ) < (limit : ℚ) := by exact_mod_cast hlim
      exact hpos.ne'
    have hceil : ⌈(l.length : ℚ) / (limit : ℚ)⌉ < page := by
      simp [routeTotalPages, JNum.div, JNum.ceil, JNum.lt, hLQ] at hpage
      exact_mod_cast hpage
    have h2 : (l.length : ℚ) / (limit : ℚ) ≤ (((page - 1 : ℤ)) : ℚ) := by
      refine le_trans (Int.le_ceil _) ?_
      exact_mod_cast (by omega : ⌈(l.length : ℚ) / (limit : ℚ)⌉ ≤ page - 1)
    have h3 : (l.length : ℚ) ≤ (((page - 1 : ℤ)) : ℚ) * (limit : ℚ) := by
      rw [div_le_iff₀ (by exact_mod_cast hlim : (0 : ℚ) < (limit : ℚ))] at h2
      exact h2
    have h4 : (l.length : ℤ) ≤ (page - 1) * limit := by exact_mod_cast h3
    have ha : resolveIdx l.length (JNum.fin ((((page - 1) * limit : ℤ) : ℚ)))
        = l.length := by
      simp only [resolveIdx, truncQ_intCast]
      rw [if_neg (by omega : ¬ ((page - 1) * limit : ℤ) < 0)]
      omega
    simp only [jsSlice, ha]
    rw [List.drop_length]
    exact List.take_nil

/-- Witness for C2 amended at page 0 with one record and page size 1. -/
theorem C2_amended_paginator_witness :
    routePaginate [exRec0] (JNum.fin ((0 : ℤ) : ℚ)) (JNum.fin ((1 : ℤ) : ℚ)) = [] :=
  C2_amended_paginator [exRec0] 0 1 (by decide) (Or.inl rfl)

/-- C8 fails as stated: a search string consisting of one space is not the
default (empty) value, yet `buildQuery` omits the `search` key, because the
emission test is on the trimmed value. -/
theorem C8_counterexample :
    fsWhitespaceSearch.search ≠ ""
      ∧ hasKey (buildQuery "en" fsWhitespaceSearch) "search" = false := by
  decide

/-- C8 amended: `buildQuery` omits a key exactly when its value is at or
beyond its default after normalization — `search` when its trimmed value is
empty, `status`/`type` when the set is empty, `minPrice` when it is ≤ its
floor 0, `maxPrice` when it is ≥ its ceiling 1000 — while `sortBy`,
`sortDirection`, `page` and `limit` (and `locale`) are always emitted. -/
theorem C8_amended_omission (loc : String) (fs : FilterState) :
    (hasKey (buildQuery loc fs) "search" = true ↔ jsTrim fs.search ≠ "")
    ∧ (hasKey (buildQuery loc fs) "status" = true ↔ fs.status ≠ [])
    ∧ (hasKey (buildQuery loc fs) "type" = true ↔ fs.type ≠ [])
    ∧ (hasKey (buildQuery loc fs) "minPrice" = true ↔ 0 < fs.minPrice)
    ∧ (hasKey (buildQuery loc fs) "maxPrice" = true ↔ fs.maxPrice < 1000)
    ∧ hasKey (buildQuery loc fs) "sortBy" = true
    ∧ hasKey (buildQuery loc fs) "sortDirection" = true
    ∧ hasKey (buildQuery loc fs) "page" = true
    ∧ hasKey (buildQuery loc fs) "limit" = true
    ∧ hasKey (buildQuery loc fs) "locale" = true := by
  refine ⟨?_, ?_, ?_, ?_, ?_, ?_, ?_, ?_, ?_, ?_⟩
  · rw [hasKey, getParam_buildQuery_search]
    split_ifs with h <;> simp [h]
  · rw [hasKey, getParam_buildQuery_status]
    split_ifs with h <;> simp_all [List.isEmpty_iff]
  · rw [hasKey, getParam_buildQuery_type]
    split_ifs with h <;> simp_all [List.isEmpty_iff]
  · rw [hasKey, getParam_buildQuery_minPrice]
    split_ifs with h <;> simp [h]
  · rw [hasKey, getParam_buildQuery_maxPrice]
    split_ifs with h <;> simp [h]
  · rw [hasKey, getParam_buildQuery_sortBy]
    rfl
  · rw [hasKey, getParam_buildQuery_sortDirection]
    rfl
  · rw [hasKey, getParam_buildQuery_page]
    rfl
  · rw [hasKey, getParam_buildQuery_limit]
    rfl
  · show (getParam (buildQuery loc fs) "locale").isSome = true
    simp only [buildQuery, getParam]
    split_ifs <;> rfl

/-- C1 fails as stated: the client encodes the sort field under the key
`sortBy`, but the list API route reads `sort_by`, so a non-default sort field
("price") does not survive the round trip — the route falls back to
`last_updated`. -/
theorem C1_counterexample :
    fsSortPrice.sortBy = "price"
      ∧ fsSortPrice.sortBy ≠ initialFilters.sortBy
      ∧ (routeParse (buildQuery "en" fsSortPrice)).sort_by = "last_updated"
      ∧ (routeParse (buildQuery "en" fsSortPrice)).sort_by ≠ fsSortPrice.sortBy := by
  refine ⟨rfl, by decide, ?_, ?_⟩
  · show orDefault (getParam (buildQuery "en" fsSortPrice) "sort_by") "last_updated"
        = "last_updated"
    rw [(getParam_buildQuery_snake "en" fsSortPrice).1]
    rfl
  · show orDefault (getParam (buildQuery "en" fsSortPrice) "sort_by") "last_updated"
        ≠ fsSortPrice.sortBy
    rw [(getParam_buildQuery_snake "en" fsSortPrice).1]
    decide

/-- Projection lemmas for `routeParse`, stated once so that later proofs can
rewrite without re-reducing the parser term. -/
theorem routeParse_search (ps : List (String × String)) :
    (routeParse ps).search = ((getParam ps "search").map jsToLower).getD "" := rfl

/-- `sort_by` projection of the parser. -/
theorem routeParse_sort_by (ps : List (String × String)) :
    (routeParse ps).sort_by = orDefault (getParam ps "sort_by") "last_updated" := rfl

/-- `order` projection of the parser. -/
theorem routeParse_order (ps : List (String × String)) :
    (routeParse ps).order = orDefault (getParam ps "order") "desc" := rfl

/-- `status` projection of the parser. -/
theorem routeParse_status (ps : List (String × String)) :
    (routeParse ps).status =
      match getParam ps "status" with
      | none => []
      | some s => jsSplit ',' s := rfl

/-- `type` projection of the parser. -/
theorem routeParse_type (ps : List (String × String)) :
    (routeParse ps).type =
      match getParam ps "type" with
      | none => []
      | some s => jsSplit ',' s := rfl

/-- `minPrice` projection of the parser. -/
theorem routeParse_minPrice (ps : List (String × String)) :
    (routeParse ps).minPrice = parseFloatJS (orDefault (getParam ps "min_price") "0") :=
  rfl

/-- `maxPrice` projection of the parser. -/
theorem routeParse_maxPrice (ps : List (String × String)) :
    (routeParse ps).maxPrice
      = parseFloatJS (orDefault (getParam ps "max_price") "Infinity") := rfl

/-- `page` projection of the parser. -/
theorem routeParse_page (ps : List (String × String)) :
    (routeParse ps).page = parseIntJS (orDefault (getParam ps "page") "1") := rfl

/-- `limit` projection of the parser. -/
theorem routeParse_limit (ps : List (String × String)) :
    (routeParse ps).limit = parseIntJS (orDefault (getParam ps "limit") "10") := rfl

/-- C1 amended: re-parsing the built query by the list API route preserves
the search string up to trimming and lowercasing, preserves the status and
type sets exactly (when their elements are comma-free), preserves the page
number, and fixes the page size at 10; but the sort field, sort direction,
minimum price and maximum price never survive — the encoder writes
`sortBy`/`sortDirection`/`minPrice`/`maxPrice` while the route reads
`sort_by`/`order`/`min_price`/`max_price`, so those four always re-parse to
their defaults. -/
theorem C1_amended_roundtrip (loc : String) (fs : FilterState) :
    (routeParse (buildQuery loc fs)).search = jsToLower (jsTrim fs.search)
    ∧ (fs.status ≠ [] → (∀ p ∈ fs.status, ',' ∉ p.data) →
        (routeParse (buildQuery loc fs)).status = fs.status)
    ∧ (fs.status = [] → (routeParse (buildQuery loc fs)).status = [])
    ∧ (fs.type ≠ [] → (∀ p ∈ fs.type, ',' ∉ p.data) →
        (routeParse (buildQuery loc fs)).type = fs.type)
    ∧ (fs.type = [] → (routeParse (buildQuery loc fs)).type = [])
    ∧ (routeParse (buildQuery loc fs)).page = JNum.fin (fs.page : ℚ)
    ∧ (routeParse (buildQuery loc fs)).limit = JNum.fin 10
    ∧ (routeParse (buildQuery loc fs)).sort_by = "last_updated"
    ∧ (routeParse (buildQuery loc fs)).order = "desc"
    ∧ (routeParse (buildQuery loc fs)).minPrice = JNum.fin 0
    ∧ (routeParse (buildQuery loc fs)).maxPrice = JNum.inf := by
  refine ⟨?_, ?_, ?_, ?_, ?_, ?_, ?_, ?_, ?_, ?_, ?_⟩
  · rw [routeParse_search, getParam_buildQuery_search]
    split_ifs with h
    · simp [h]
      rfl
    · rfl
  · intro hne hsep
    rw [routeParse_status, getParam_buildQuery_status,
      if_neg (by simp [List.isEmpty_iff, hne])]
    exact jsSplit_jsJoin ',' fs.status hne hsep
  · intro hemp
    rw [routeParse_status, getParam_buildQuery_status,
      if_pos (by simp [List.isEmpty_iff, hemp])]
  · intro hne hsep
    rw [routeParse_type, getParam_buildQuery_type,
      if_neg (by simp [List.isEmpty_iff, hne])]
    exact jsSplit_jsJoin ',' fs.type hne hsep
  · intro hemp
    rw [routeParse_type, getParam_buildQuery_type,
      if_pos (by simp [List.isEmpty_iff, hemp])]
  · rw [routeParse_page, getParam_buildQuery_page]
    rw [show orDefault (some (intToStr fs.page)) "1" = intToStr fs.page from by
      simp [orDefault, intToStr_ne_empty]]
    exact parseIntJS_intToStr fs.page
  · rw [routeParse_limit, getParam_buildQuery_limit]
    decide
  · rw [routeParse_sort_by, (getParam_buildQuery_snake loc fs).1]
    rfl
  · rw [routeParse_order, (getParam_buildQuery_snake loc fs).2.1]
    rfl
  · rw [routeParse_minPrice, (getParam_buildQuery_snake loc fs).2.2.1]
    exact parseFloatJS_zero
  · rw [routeParse_maxPrice, (getParam_buildQuery_snake loc fs).2.2.2]
    exact parseFloatJS_infinity

/-- Witness for C1 amended at a fully populated filter state. -/
theorem C1_amended_roundtrip_witness :
    (fsRich.status ≠ [] ∧ (∀ p ∈ fsRich.status, ',' ∉ p.data))
      ∧ (routeParse (buildQuery "en" fsRich)).status = fsRich.status
      ∧ (routeParse (buildQuery "en" fsRich)).page = JNum.fin ((3 : ℤ) : ℚ)
      ∧ (routeParse (buildQuery "en" fsRich)).sort_by = "last_updated" := by
  refine ⟨⟨by decide, by decide⟩, ?_, ?_, ?_⟩
  · exact (C1_amended_roundtrip "en" fsRich).2.1 (by decide) (by decide)
  · exact (C1_amended_roundtrip "en" fsRich).2.2.2.2.2.1
  · exact (C1_amended_roundtrip "en" fsRich).2.2.2.2.2.2.2.1
